import Mathlib

/-!
Shallow embedding of the imaging core of MakeBootableUSB-on-Linux: the
image analyzer (`mbulinux/core/image_analyzer.py`), the two write
strategies (`mbulinux/core/writer_strategies/linux_strategy.py` and
`windows_strategy.py`) and the CLI driver (`mbulinux/cli.py`).

External processes (parted, mkfs, dd, 7z, wimlib, udisksctl, file) are
modelled as environment data: an environment record holds what each
external invocation would report, and the embedded functions reproduce
the Python control flow over those reports.  Filesystem state that the
Python code observes (path existence, file sizes, file bytes) is a
`SysFS` value.  Progress callbacks become an explicit trace of
`TraceItem`s: progress events (message text elided; a flag marks the
emissions that sit on error paths) interleaved with external tool
invocations.
-/

namespace MBU

/-- ISO type codes from `constants.py`: `ISO_TYPE_UNKNOWN = 0`,
`ISO_TYPE_LINUX = 1`, `ISO_TYPE_WINDOWS = 2`.  The analyzer only ever
produces these three (the macOS/hybrid codes 3 and 4 are never
assigned). -/
inductive IsoType
  | unknown
  | linux
  | windows
  deriving DecidableEq, Repr

/-- Partition schemes from `constants.py` (`SCHEME_MBR`, `SCHEME_GPT`). -/
inductive Scheme
  | mbr
  | gpt
  deriving DecidableEq, Repr

/-- Filesystems from `constants.py` (`FS_FAT32`, `FS_NTFS`, `FS_EXFAT`). -/
inductive Fsys
  | fat32
  | ntfs
  | exfat
  deriving DecidableEq, Repr

/-- The parted name of a filesystem as used in `mkpart` commands. -/
def Fsys.partedName : Fsys → String
  | .fat32 => "fat32"
  | .ntfs => "ntfs"
  | .exfat => "exfat"

/-- Content of one file: its byte size and the byte at each offset.
A function is used rather than a literal list so that multi-gigabyte
files can be written down. -/
structure FileData where
  size : Nat
  byteAt : Nat → Nat

/-- The slice of the filesystem the embedded code observes: a map from
paths to file data.  A path exists iff it is listed. -/
structure SysFS where
  files : List (String × FileData)

/-- Model of `os.path.exists`. -/
def SysFS.pathExists (fs : SysFS) (p : String) : Bool :=
  (fs.files.lookup p).isSome

/-- Model of `os.path.getsize` (0 when the path is missing; the Python
call would raise there, and every use in the embedding is guarded by an
existence check or an explicit exception branch). -/
def SysFS.getsize (fs : SysFS) (p : String) : Nat :=
  ((fs.files.lookup p).map FileData.size).getD 0

/-- Model of `f.seek(off); f.read(len)`: the bytes of the window
clipped to the end of the file, exactly as Python `read` returns fewer
bytes near EOF. -/
def SysFS.readWindow (fs : SysFS) (p : String) (off len : Nat) : List Nat :=
  match fs.files.lookup p with
  | none => []
  | some fd => (List.range (min len (fd.size - off))).map (fun i => fd.byteAt (off + i))

/-- ASCII bytes of a marker string, for the byte-pattern probes of
`image_analyzer.py`. -/
def bytesOf (s : String) : List Nat :=
  s.toList.map Char.toNat

/-- Python `pattern in data` on byte strings. -/
def containsMarker (pat : String) (data : List Nat) : Bool :=
  decide (bytesOf pat <:+: data)

/-- Lowercased character sequence of a string (Python `s.lower()`). -/
def lowerChars (s : String) : List Char :=
  s.toList.map Char.toLower

/-- Python `needle in hay.lower()` on strings. -/
def strContainsLower (hay needle : String) : Bool :=
  decide (needle.toList <:+: lowerChars hay)

/-- Extension gate of `ImageAnalyzer.analyze`:
`iso_path.lower().endswith(('.iso', '.img'))`. -/
def hasIsoExtension (p : String) : Bool :=
  decide (".iso".toList <:+ lowerChars p) || decide (".img".toList <:+ lowerChars p)

/-- The result dictionary of `ImageAnalyzer.analyze`
(`image_analyzer.py`).  `has_eltorito` models the key that is only
conditionally inserted (absent encoded as `false`). -/
structure ImageInfo where
  path : String
  size : Nat
  type : IsoType
  os_name : String
  architecture : String
  requires_uefi : Bool
  wim_size : Nat
  is_hybrid : Bool
  has_eltorito : Bool
  deriving DecidableEq, Repr

/-- Outcomes of the external probes `ImageAnalyzer` shells out to:
`fileToolOut p` is the stdout of `file p` (consumed by `_check_hybrid`
and `_identify_linux_distro`); `windowsUefi p` is the result of the
EFI-directory probe `_check_windows_uefi` (a udisksctl loop-setup plus
directory check, returning `False` on any failure); `wimSize p` is the
`install.wim`/`install.esd` size that `_get_wim_size` recovers from the
`7z l` listing (0 when the probe fails); `readFails p` models an
`IOError` while reading the signature window. -/
structure AnalyzerEnv where
  fileToolOut : String → String
  windowsUefi : String → Bool
  wimSize : String → Nat
  readFails : String → Bool

/-- External probe processes spawned by the analyzer (the
loop-setup/loop-delete pair of `_check_windows_uefi` is recorded as a
single `loopSetup`). -/
inductive ProbeCall
  | fileTool
  | loopSetup
  | sevenZList
  deriving DecidableEq, Repr

/-- Analysis result together with the content reads (offset, length)
and external probes the call performed. -/
structure AnalyzeOut where
  info : ImageInfo
  reads : List (Nat × Nat)
  probes : List ProbeCall
  deriving DecidableEq, Repr

/-- Failure of `ImageAnalyzer.analyze`: the `FileNotFoundError` raised
when the path does not exist (a read `IOError` is caught inside
`analyze` and does not abort it). -/
inductive AnalyzeError
  | notFound
  deriving DecidableEq, Repr

/-- Keyword table of `_identify_linux_distro`, in dictionary order. -/
def distroTable : List (String × List String) :=
  [("ubuntu", ["ubuntu", "kubuntu", "xubuntu", "lubuntu"]),
   ("fedora", ["fedora"]),
   ("debian", ["debian"]),
   ("arch", ["arch linux"]),
   ("manjaro", ["manjaro"]),
   ("mint", ["linux mint"]),
   ("opensuse", ["opensuse", "suse"]),
   ("centos", ["centos"]),
   ("rhel", ["red hat"])]

/-- Embedding of `_identify_linux_distro`: first keyword match against
the lowercased `file` output, capitalized; `"Linux"` when nothing
matches (which also covers the probe failing). -/
def identifyLinuxDistro (fileOut : String) : String :=
  match distroTable.find? (fun p => p.2.any (fun kw => strContainsLower fileOut kw)) with
  | some p => p.1.capitalize
  | none => "Linux"

/-- Embedding of `_get_linux_arch` applied to the 8-byte window read at
offset 0x228. -/
def getLinuxArch (window : List Nat) : String :=
  if containsMarker "x86_64" window || containsMarker "amd64" window then "x86_64"
  else if containsMarker "i386" window || containsMarker "i686" window then "i386"
  else if containsMarker "arm64" window || containsMarker "aarch64" window then "arm64"
  else "Unknown"

/-- Embedding of `ImageAnalyzer.analyze` (`image_analyzer.py`).  The
control flow follows the source: raise when the path is missing;
populate the default result; only behind the `.iso`/`.img` extension
gate run the hybrid probe, read the 2048-byte window at offset 32768
and classify by markers (`BOOTMGR`/`NTFS` in the first 512 bytes means
Windows, else `ISOLINUX`/`GRUB`/`LINUX` anywhere in the window means
Linux). -/
def ImageAnalyzer.analyze (env : AnalyzerEnv) (fs : SysFS) (iso_path : String) :
    Except AnalyzeError AnalyzeOut :=
  if ¬ fs.pathExists iso_path then .error .notFound else
  let base : ImageInfo :=
    { path := iso_path, size := fs.getsize iso_path, type := .unknown,
      os_name := "Unknown", architecture := "Unknown", requires_uefi := false,
      wim_size := 0, is_hybrid := false, has_eltorito := false }
  if ¬ hasIsoExtension iso_path then
    .ok { info := base, reads := [], probes := [] }
  else
  let base := { base with is_hybrid := strContainsLower (env.fileToolOut iso_path) "hybrid" }
  if env.readFails iso_path then
    .ok { info := base, reads := [(32768, 2048)], probes := [.fileTool] }
  else
  let data := fs.readWindow iso_path 32768 2048
  let base := if containsMarker "EL TORITO" data then { base with has_eltorito := true } else base
  if containsMarker "BOOTMGR" (data.take 512) || containsMarker "NTFS" (data.take 512) then
    .ok { info := { base with
                    type := .windows,
                    os_name := "Windows",
                    requires_uefi := env.windowsUefi iso_path,
                    wim_size := env.wimSize iso_path },
          reads := [(32768, 2048)],
          probes := [.fileTool, .loopSetup, .sevenZList] }
  else if containsMarker "ISOLINUX" data || containsMarker "GRUB" data
      || containsMarker "LINUX" data then
    .ok { info := { base with
                    type := .linux,
                    os_name := identifyLinuxDistro (env.fileToolOut iso_path),
                    architecture := getLinuxArch (fs.readWindow iso_path 0x228 8) },
          reads := [(32768, 2048), (0x228, 8)],
          probes := [.fileTool, .fileTool] }
  else
    .ok { info := base, reads := [(32768, 2048)], probes := [.fileTool] }

/-- External tool invocations made by the write strategies. -/
inductive ExtCall
  | udisksctlUnmount
  | partedMklabel (scheme : Scheme)
  | partedMkpart (fsName : String)
  | partedSetFlag (flag : String)
  | mkfsFat
  | mkfsNtfs
  | mkfsExfat
  | ddTransfer
  | syncStorage
  | sevenZExtract
  | wimlibSplit (chunkMiB : Nat)
  | mountPart
  | umountPart
  | grubInstall
  deriving DecidableEq, Repr

/-- One observable step of a strategy run: a progress-callback event
(`update_progress(percent, message)`, message text elided; `failure`
marks the emissions that sit on error paths) or an external tool
invocation. -/
inductive TraceItem
  | ev (percent : Nat) (failure : Bool)
  | call (c : ExtCall)
  deriving DecidableEq, Repr

/-- Outcome of a `write` call: the returned boolean, or an uncaught
exception propagating to the caller. -/
inductive RunResult
  | ok (success : Bool)
  | exn
  deriving DecidableEq, Repr

/-- The options dict handed to `WriteStrategy.write`.  Optional fields
model `options.get(key, default)` lookups: `none` means the key is
absent from the dict.  No caller in the repository (CLI `run_write` or
the GUI settings panel) ever inserts the `uefi` or `format` keys. -/
structure WriteOptions where
  scheme : Option Scheme
  filesystem : Option Fsys
  label : String
  quick : Bool
  validate : Bool
  uefi : Option Bool
  format : Option Bool

/-- The options dict built in `cli.run_write`: scheme, filesystem,
label, quick and validate keys only. -/
def cliOptions (scheme : Scheme) (fsKind : Fsys) (label : String)
    (quick noValidate : Bool) : WriteOptions :=
  { scheme := some scheme, filesystem := some fsKind, label := label,
    quick := quick, validate := !noValidate, uefi := none, format := none }

/-- Environment of one `LinuxWriteStrategy.write` run: outcomes of its
external invocations.  `ddLines` is the parsed view of the stdout lines
the dd monitor loop sees: `some b` for a line containing the word
"bytes" whose first token parses as the integer `b` (the cumulative
byte count dd prints), `none` for every other line (no "bytes", or a
`ValueError`/`IndexError` while parsing, both swallowed). -/
structure LinuxEnv where
  mklabelOk : Bool
  mkpartOk : Bool
  setFlagOk : Bool
  mkfsOk : Bool
  ddLines : List (Option Nat)
  ddReturncode : Nat

/-- Embedding of `LinuxWriteStrategy._format_device`: partition table,
single partition, boot flag for MBR, then mkfs for the chosen
filesystem; any `CalledProcessError` is caught and reported as a
percent-0 failure event. -/
def LinuxWriteStrategy.formatDevice (env : LinuxEnv) (options : WriteOptions) :
    List TraceItem × Bool :=
  let scheme := options.scheme.getD Scheme.gpt
  let fsKind := options.filesystem.getD Fsys.fat32
  let mkfsCall : ExtCall :=
    match fsKind with
    | .fat32 => .mkfsFat
    | .ntfs => .mkfsNtfs
    | .exfat => .mkfsExfat
  let fail : List TraceItem → List TraceItem × Bool :=
    fun t => (t ++ [.ev 0 true], false)
  let afterFlags : List TraceItem → List TraceItem × Bool := fun t =>
    let t3 := t ++ [.call mkfsCall]
    if !env.mkfsOk then fail t3 else (t3 ++ [.ev 2 false], true)
  let t0 : List TraceItem := [.ev 0 false, .call (.partedMklabel scheme)]
  if !env.mklabelOk then fail t0 else
  let t1 := t0 ++ [.call (.partedMkpart fsKind.partedName)]
  if !env.mkpartOk then fail t1 else
  if scheme = Scheme.mbr then
    let t2 := t1 ++ [.call (.partedSetFlag "boot")]
    if !env.setFlagOk then fail t2 else afterFlags t2
  else afterFlags t1

/-- Progress events of the dd monitor loop in
`LinuxWriteStrategy.write`: one event per parsed byte-count line, with
percent `min 99 (b * 100 / isoSize)` — the exact-arithmetic reading of
`min(99, int((bytes_written / iso_size) * 100))`.  The boolean is true
when the loop dies of `ZeroDivisionError` (`iso_size = 0`), which
aborts it at the first parsed line. -/
def ddProgress (isoSize : Nat) : List (Option Nat) → List TraceItem × Bool
  | [] => ([], false)
  | none :: rest => ddProgress isoSize rest
  | some b :: rest =>
    if isoSize = 0 then ([], true)
    else
      let out := ddProgress isoSize rest
      (.ev (min 99 (b * 100 / isoSize)) false :: out.1, out.2)

/-- Embedding of `LinuxWriteStrategy.write` (`linux_strategy.py`):
device-existence check, best-effort unmount, `os.path.getsize` (which
raises out of `write` when the image is missing), optional formatting,
then the dd transfer with its monitor loop; on returncode 0 the 100%
event is emitted and the separate `sync` is invoked afterwards. -/
def LinuxWriteStrategy.write (env : LinuxEnv) (fs : SysFS)
    (iso_path device : String) (options : WriteOptions) :
    List TraceItem × RunResult :=
  let t0 : List TraceItem := [.ev 0 false]
  if !fs.pathExists device then (t0 ++ [.ev 0 true], .ok false) else
  let t1 := t0 ++ [.call .udisksctlUnmount]
  if !fs.pathExists iso_path then (t1, .exn) else
  let isoSize := fs.getsize iso_path
  let fmt := if options.format.getD true then LinuxWriteStrategy.formatDevice env options
             else ([], true)
  let t2 := t1 ++ fmt.1
  if !fmt.2 then (t2, .ok false) else
  let t3 := t2 ++ [.ev 5 false, .call .ddTransfer]
  let dd := ddProgress isoSize env.ddLines
  let t4 := t3 ++ dd.1
  if dd.2 then (t4 ++ [.ev 0 true], .ok false)
  else if env.ddReturncode = 0 then
    (t4 ++ [.ev 100 false, .call .syncStorage], .ok true)
  else (t4 ++ [.ev 0 true], .ok false)

/-- Embedding of `LinuxWriteStrategy.validate`: read the first 512
bytes of the image and of the device and compare them; any exception
(either path unopenable) yields false. -/
def LinuxWriteStrategy.validate (fs : SysFS) (iso_path device : String) : Bool :=
  if fs.pathExists iso_path && fs.pathExists device then
    decide (fs.readWindow iso_path 0 512 = fs.readWindow device 0 512)
  else false

/-- Temporary-directory state threaded through the Windows strategy:
`tempfile.mkdtemp` hands out the directory id `counter`, and `live` is
the set of directories currently on disk. -/
structure TmpState where
  counter : Nat
  live : List Nat

/-- Freshness invariant of `TmpState`: every live directory id was
handed out before the counter. -/
def TmpState.wf (st : TmpState) : Prop :=
  ∀ x ∈ st.live, x < st.counter

/-- Model of `tempfile.mkdtemp`: returns the fresh directory and the
new state. -/
def TmpState.mkdtemp (st : TmpState) : Nat × TmpState :=
  (st.counter, { counter := st.counter + 1, live := st.counter :: st.live })

/-- Model of `shutil.rmtree(d, ignore_errors=True)`. -/
def TmpState.rmtree (st : TmpState) (d : Nat) : TmpState :=
  { st with live := st.live.filter (fun x => x ≠ d) }

/-- `needs_split = wim_size > 4 * 1024**3` from
`WindowsWriteStrategy.write` (`windows_strategy.py` line 54). -/
def needsSplit (wim_size : Nat) : Bool :=
  decide (4 * 1024 ^ 3 < wim_size)

/-- Chunk argument of the `wimlib-imagex split` invocation in
`_split_wim_file`: the literal `'3800'`, which wimlib reads as a part
size in mebibytes. -/
def wimlibChunkMiB : Nat := 3800

/-- Scheme decision of `_format_for_windows`: the requested scheme is
overridden to GPT when the `uefi` option is set — and that option is
absent from every caller in the repository, so `options.get('uefi',
True)` always defaults to true. -/
def WindowsWriteStrategy.windowsScheme (options : WriteOptions) : Scheme :=
  let scheme := options.scheme.getD Scheme.gpt
  if options.uefi.getD true && decide (scheme ≠ Scheme.gpt) then Scheme.gpt else scheme

/-- Filesystems of the partitions `_format_for_windows` creates, in
order: `_create_dual_partitions` makes a FAT32 boot partition plus an
NTFS install partition when the WIM must be split, and
`_create_single_partition` makes a single NTFS partition otherwise. -/
def WindowsWriteStrategy.partitionLayout (split : Bool) : List Fsys :=
  if split then [Fsys.fat32, Fsys.ntfs] else [Fsys.ntfs]

/-- Environment of one `WindowsWriteStrategy.write` run.  `partsOk`
collapses the parted/mkfs steps of `_create_dual_partitions` or
`_create_single_partition`: a failure of any of them is the
`CalledProcessError` caught in `_format_for_windows` (the exact prefix
of partitioning calls issued before the failing one is not tracked; no
claim depends on it).  `copyBootOk`, `copyInstallOk` and `copyAllOk`
likewise collapse the mount/copy/umount phase of the respective
`_copy_*` helper.  `grubMountOk` is the mount inside `_install_grub`,
whose failure `_install_bootloader` swallows. -/
structure WindowsEnv where
  mklabelOk : Bool
  partsOk : Bool
  extractOk : Bool
  wimInTree : Bool
  copyBootOk : Bool
  copyInstallOk : Bool
  copyAllOk : Bool
  grubMountOk : Bool
  syncOk : Bool

/-- Mount/copy/umount phase of a `_copy_boot_files` /
`_copy_install_files` / `_copy_all_files` helper: make a mount-point
directory, mount, copy, unmount, and remove the directory in the
`finally` block on success and failure alike. -/
def WindowsWriteStrategy.copyPhase (phaseOk : Bool) (st : TmpState) :
    List TraceItem × Bool × TmpState :=
  let md := st.mkdtemp
  let items : List TraceItem :=
    if phaseOk then [.call .mountPart, .call .umountPart] else [.call .mountPart]
  (items, phaseOk, (md.2.rmtree md.1))

/-- Embedding of `_install_bootloader` for the dual-partition layout:
`_install_grub` mounts the boot partition, writes the GRUB stanza, runs
`grub-install` (`check=False`) and unmounts; every exception is
swallowed by `_install_bootloader`, and the mount-point directory is
removed in the `finally` block. -/
def WindowsWriteStrategy.grubPhase (env : WindowsEnv) (st : TmpState) :
    List TraceItem × TmpState :=
  let md := st.mkdtemp
  let items : List TraceItem :=
    if env.grubMountOk then [.call .mountPart, .call .grubInstall, .call .umountPart]
    else [.call .mountPart]
  (items, md.2.rmtree md.1)

/-- Embedding of `_format_for_windows`: scheme decision (with the
percent-0 notice event when the requested scheme is overridden), the
partition-table call, then the dual or single partition layout; any
`CalledProcessError` becomes a percent-0 failure event and a false
result. -/
def WindowsWriteStrategy.formatForWindows (env : WindowsEnv) (options : WriteOptions)
    (splitWim : Bool) : List TraceItem × Bool :=
  let requested := options.scheme.getD Scheme.gpt
  let scheme := WindowsWriteStrategy.windowsScheme options
  let t0 : List TraceItem :=
    (if options.uefi.getD true && decide (requested ≠ Scheme.gpt)
     then [.ev 0 false] else [])
    ++ [.ev 5 false, .call (.partedMklabel scheme)]
  if !env.mklabelOk then (t0 ++ [.ev 0 true], false) else
  let layoutCalls : List TraceItem :=
    if splitWim then
      [.call (.partedMkpart "fat32"), .call (.partedSetFlag "esp"), .call .mkfsFat,
       .call (.partedMkpart "ntfs"), .call .mkfsNtfs]
    else
      [.call (.partedMkpart "ntfs"),
       .call (.partedSetFlag (if scheme = Scheme.gpt then "esp" else "boot")),
       .call .mkfsNtfs]
  if !env.partsOk then (t0 ++ layoutCalls ++ [.ev 0 true], false) else
  (t0 ++ layoutCalls ++ [.ev 10 false], true)

/-- Tail of `_extract_and_copy` after the copies succeeded: the 95%
event, the bootloader install (dual layout only), the sync and the
100% event, or the failure event when the sync raises. -/
def WindowsWriteStrategy.finishPhase (env : WindowsEnv) (splitWim : Bool)
    (t : List TraceItem) (stc : TmpState) : List TraceItem × Bool × TmpState :=
  let t2 := t ++ [.ev 95 false]
  let gp := if splitWim then WindowsWriteStrategy.grubPhase env stc else ([], stc)
  let t3 := t2 ++ gp.1 ++ [.call .syncStorage]
  if !env.syncOk then (t3 ++ [.ev 0 true], false, gp.2)
  else (t3 ++ [.ev 100 false], true, gp.2)

/-- Body of the `try` block of `_extract_and_copy`: extract with 7z,
split the oversized WIM when present (failures of the split are
swallowed by `_split_wim_file`), copy to the partitions, then
`finishPhase`; any exception becomes a percent-0 failure event. -/
def WindowsWriteStrategy.extractBody (env : WindowsEnv) (splitWim : Bool)
    (st0 : TmpState) : List TraceItem × Bool × TmpState :=
  let t0 : List TraceItem := [.ev 15 false, .call .sevenZExtract]
  if !env.extractOk then (t0 ++ [.ev 0 true], false, st0) else
  let t1 := t0 ++ (if splitWim && env.wimInTree
                   then [.ev 30 false, .call (.wimlibSplit wimlibChunkMiB)] else [])
  if splitWim then
    let tb := t1 ++ [.ev 50 false]
    let boot := WindowsWriteStrategy.copyPhase env.copyBootOk st0
    if !boot.2.1 then (tb ++ boot.1 ++ [.ev 0 true], false, boot.2.2) else
    let ti := tb ++ boot.1 ++ [.ev 70 false]
    let inst := WindowsWriteStrategy.copyPhase env.copyInstallOk boot.2.2
    if !inst.2.1 then (ti ++ inst.1 ++ [.ev 0 true], false, inst.2.2) else
    WindowsWriteStrategy.finishPhase env splitWim (ti ++ inst.1) inst.2.2
  else
    let ta := t1 ++ [.ev 60 false]
    let allc := WindowsWriteStrategy.copyPhase env.copyAllOk st0
    if !allc.2.1 then (ta ++ allc.1 ++ [.ev 0 true], false, allc.2.2) else
    WindowsWriteStrategy.finishPhase env splitWim (ta ++ allc.1) allc.2.2

/-- Embedding of `_extract_and_copy`: make the scratch directory, run
the `try` body, and remove the scratch directory in the `finally`
block on every path, success and failure alike. -/
def WindowsWriteStrategy.extractAndCopy (env : WindowsEnv) (splitWim : Bool)
    (st : TmpState) : List TraceItem × Bool × TmpState :=
  let md := st.mkdtemp
  let body := WindowsWriteStrategy.extractBody env splitWim md.2
  (body.1, body.2.1, body.2.2.rmtree md.1)

/-- Embedding of `WindowsWriteStrategy.write` (`windows_strategy.py`):
re-analyze the image (the `FileNotFoundError` of a missing image
propagates out of `write`), compute `needs_split`, unmount, format and
extract-and-copy. -/
def WindowsWriteStrategy.write (env : WindowsEnv) (aenv : AnalyzerEnv) (fs : SysFS)
    (iso_path device : String) (options : WriteOptions) (st : TmpState) :
    List TraceItem × RunResult × TmpState :=
  let t0 : List TraceItem := [.ev 0 false]
  match ImageAnalyzer.analyze aenv fs iso_path with
  | .error _ => (t0, .exn, st)
  | .ok out =>
    let splitWim := needsSplit out.info.wim_size
    let t1 := t0 ++ [.call .udisksctlUnmount]
    let fmt := WindowsWriteStrategy.formatForWindows env options splitWim
    let t2 := t1 ++ fmt.1
    if !fmt.2 then (t2, .ok false, st) else
    let ec := WindowsWriteStrategy.extractAndCopy env splitWim st
    (t2 ++ ec.1, .ok ec.2.1, ec.2.2)

/-- Modelled from the spec: the Payload-split collaborator
(`wimlib-imagex split`, an external tool, not code of this repository)
"splits a single large file into bounded-size parts given a size
ceiling".  `splitParts chunk total` lists the part sizes for a `total`
byte payload under a `chunk` byte ceiling. -/
def splitParts (chunk : Nat) (total : Nat) : List Nat :=
  if h : chunk = 0 ∨ total = 0 then []
  else if h2 : total ≤ chunk then [total]
  else chunk :: splitParts chunk (total - chunk)
termination_by total
decreasing_by
  push_neg at h
  omega

/-- Command-line arguments of `cli.main` after argparse. -/
structure CliArgs where
  iso : Option String
  device : Option String
  scheme : Scheme
  fsKind : Fsys
  label : String
  quick : Bool
  noValidate : Bool
  listDevices : Bool
  showVersion : Bool

/-- Environment of one CLI run: the permission-check outcome
(`PermissionManager.request_permissions`), the confirmation-prompt
reply (with `interrupted` modelling a `KeyboardInterrupt` at the
prompt), the analyzer/strategy environments, and the external calls of
the `--list-devices` mode (the `DiskManager` enumeration, not embedded
here). -/
structure CliEnv where
  permOk : Bool
  userConfirm : String
  interrupted : Bool
  aenv : AnalyzerEnv
  lenv : LinuxEnv
  wenv : WindowsEnv
  listCalls : List TraceItem

/-- Filesystem override in `cli.run_write` (lines 169-171): a WIM above
4 GiB forces `args.fs = 'ntfs'`. -/
def cliEffectiveFs (wim_size : Nat) (requested : Fsys) : Fsys :=
  if needsSplit wim_size then Fsys.ntfs else requested

/-- Embedding of `cli.run_write`: permission check, image analysis
(whose exceptions the outer handler turns into exit code 1), the
filesystem override, strategy selection on ISO type 2, the confirmation
prompt, and the strategy run mapped to the exit code. -/
def runWrite (cenv : CliEnv) (fs : SysFS) (iso device : String) (args : CliArgs) :
    Int × List TraceItem :=
  if !cenv.permOk then (1, []) else
  match ImageAnalyzer.analyze cenv.aenv fs iso with
  | .error _ => (1, [])
  | .ok out =>
    let fsEff := cliEffectiveFs out.info.wim_size args.fsKind
    let options := cliOptions args.scheme fsEff args.label args.quick args.noValidate
    if cenv.interrupted then (130, []) else
    if cenv.userConfirm.toList.map Char.toUpper ≠ "YES".toList then (0, []) else
    if out.info.type = IsoType.windows then
      let w := WindowsWriteStrategy.write cenv.wenv cenv.aenv fs iso device options
        { counter := 0, live := [] }
      match w.2.1 with
      | .ok true => (0, w.1)
      | .ok false => (1, w.1)
      | .exn => (1, w.1)
    else
      let l := LinuxWriteStrategy.write cenv.lenv fs iso device options
      match l.2 with
      | .ok true => (0, l.1)
      | .ok false => (1, l.1)
      | .exn => (1, l.1)

/-- Embedding of `cli.main`: the version and list-devices modes, the
argparse requirement errors (exit 2), the image and device existence
checks (exit 1, before anything else runs), then `run_write`. -/
def cliMain (cenv : CliEnv) (fs : SysFS) (args : CliArgs) : Int × List TraceItem :=
  if args.showVersion then (0, []) else
  if args.listDevices then (0, cenv.listCalls) else
  match args.iso with
  | none => (2, [])
  | some iso =>
    match args.device with
    | none => (2, [])
    | some device =>
      if !fs.pathExists iso then (1, []) else
      if !fs.pathExists device then (1, []) else
      runWrite cenv fs iso device args

/-- Percent and failure flag of a trace item, none for tool calls. -/
def TraceItem.eventData : TraceItem → Option (Nat × Bool)
  | .ev p f => some (p, f)
  | .call _ => none

/-- The progress events of a trace, in order. -/
def eventsOf (tr : List TraceItem) : List (Nat × Bool) :=
  tr.filterMap TraceItem.eventData

/-- The percents of the progress events of a trace, in order. -/
def percentsOf (tr : List TraceItem) : List Nat :=
  (eventsOf tr).map Prod.fst

/-- Non-decreasing check on a percent sequence. -/
def nonDecB : List Nat → Bool
  | a :: b :: rest => decide (a ≤ b) && nonDecB (b :: rest)
  | _ => true

/-- Terminal-event check: the last delivered event has percent 100 or
is an error-path emission (a trace without events passes vacuously). -/
def finalEventOkB (tr : List TraceItem) : Bool :=
  match (eventsOf tr).getLast? with
  | some pf => decide (pf.1 = 100) || pf.2
  | none => true

/-- The progress contract exactly as the spec states it for one
strategy run: every delivered percent sequence is non-decreasing, and
the final event has percent 100 or is a failure event. -/
def progressContractB (tr : List TraceItem) : Bool :=
  nonDecB (percentsOf tr) && finalEventOkB tr

/-- The amended progress contract: percents are non-decreasing up to
(excluding) the terminal event, and the terminal event has percent 100
or is a failure event. -/
def amendedContractB (tr : List TraceItem) : Bool :=
  nonDecB (percentsOf tr).dropLast && finalEventOkB tr

/-- True on the events that carry percent 100. -/
def TraceItem.isEv100 : TraceItem → Bool
  | .ev p _ => decide (p = 100)
  | .call _ => false

/-- True on the standalone storage-sync invocation. -/
def TraceItem.isSyncCall : TraceItem → Bool
  | .call .syncStorage => true
  | _ => false

/-- Ordering condition claimed for DirectBlockCopy: the (first) 100%
event is preceded by a storage-sync call. -/
def hundredOnlyAfterSyncB (tr : List TraceItem) : Bool :=
  match tr.findIdx? TraceItem.isEv100 with
  | none => true
  | some i =>
    match tr.findIdx? TraceItem.isSyncCall with
    | none => false
    | some j => decide (j < i)

@[simp]
theorem eventsOf_nil : eventsOf [] = [] := rfl

@[simp]
theorem eventsOf_cons_ev (p : Nat) (f : Bool) (tr : List TraceItem) :
    eventsOf (.ev p f :: tr) = (p, f) :: eventsOf tr := rfl

@[simp]
theorem eventsOf_cons_call (c : ExtCall) (tr : List TraceItem) :
    eventsOf (.call c :: tr) = eventsOf tr := rfl

@[simp]
theorem eventsOf_append (a b : List TraceItem) :
    eventsOf (a ++ b) = eventsOf a ++ eventsOf b := by
  simp [eventsOf]

@[simp]
theorem percentsOf_nil : percentsOf [] = [] := rfl

@[simp]
theorem percentsOf_cons_ev (p : Nat) (f : Bool) (tr : List TraceItem) :
    percentsOf (.ev p f :: tr) = p :: percentsOf tr := rfl

@[simp]
theorem percentsOf_cons_call (c : ExtCall) (tr : List TraceItem) :
    percentsOf (.call c :: tr) = percentsOf tr := by
  simp [percentsOf]

@[simp]
theorem percentsOf_append (a b : List TraceItem) :
    percentsOf (a ++ b) = percentsOf a ++ percentsOf b := by
  simp [percentsOf]

/-- C5: for every path argument that does not exist on the filesystem,
`analyze` fails with the not-found error and produces no `ImageInfo`
result. -/
theorem analyze_missing_path_notFound (env : AnalyzerEnv) (fs : SysFS) (p : String)
    (h : fs.pathExists p = false) :
    ImageAnalyzer.analyze env fs p = .error .notFound := by
  simp [ImageAnalyzer.analyze, h]

/-- Analyzer environment with inert external probes, for concrete
instantiations. -/
def defaultAenv : AnalyzerEnv :=
  { fileToolOut := fun _ => "", windowsUefi := fun _ => false,
    wimSize := fun _ => 0, readFails := fun _ => false }

theorem analyze_missing_path_notFound_witness :
    ImageAnalyzer.analyze defaultAenv { files := [] } "missing.iso" = .error .notFound :=
  analyze_missing_path_notFound defaultAenv { files := [] } "missing.iso" rfl

/-- C10: for an existing file whose name does not end in `.iso` or
`.img` (case-insensitively), `analyze` returns the default result —
type Unknown, os_name "Unknown", requires_uefi false, wim_size 0 — and
performs no content read and no external probe. -/
theorem analyze_gated_on_extension (env : AnalyzerEnv) (fs : SysFS) (p : String)
    (hex : fs.pathExists p = true) (hnot : hasIsoExtension p = false) :
    ImageAnalyzer.analyze env fs p =
      .ok { info := { path := p, size := fs.getsize p, type := .unknown,
                      os_name := "Unknown", architecture := "Unknown",
                      requires_uefi := false, wim_size := 0, is_hybrid := false,
                      has_eltorito := false },
            reads := [], probes := [] } := by
  simp [ImageAnalyzer.analyze, hex, hnot]

theorem analyze_gated_on_extension_witness :
    ImageAnalyzer.analyze defaultAenv
      { files := [("backup.raw", { size := 5, byteAt := fun _ => 7 })] } "backup.raw" =
      .ok { info := { path := "backup.raw", size := 5, type := .unknown,
                      os_name := "Unknown", architecture := "Unknown",
                      requires_uefi := false, wim_size := 0, is_hybrid := false,
                      has_eltorito := false },
            reads := [], probes := [] } :=
  analyze_gated_on_extension defaultAenv
    { files := [("backup.raw", { size := 5, byteAt := fun _ => 7 })] } "backup.raw"
    rfl (by decide)

/-- C2: for a Windows image whose `ImageInfo` has `requires_uefi =
true`, and options as built by every caller in the repository (no
`uefi` key), the scheme `_format_for_windows` uses is GPT regardless of
the requested scheme. -/
theorem windows_uefi_forces_gpt (info : ImageInfo) (options : WriteOptions)
    (hw : info.type = IsoType.windows) (hu : info.requires_uefi = true)
    (hopt : options.uefi = none) :
    WindowsWriteStrategy.windowsScheme options = Scheme.gpt := by
  unfold WindowsWriteStrategy.windowsScheme
  rw [hopt]
  cases hsch : options.scheme.getD Scheme.gpt <;> simp [hsch]

theorem windows_uefi_forces_gpt_witness :
    WindowsWriteStrategy.windowsScheme
      (cliOptions Scheme.mbr Fsys.fat32 "BOOTUSB" false false) = Scheme.gpt :=
  windows_uefi_forces_gpt
    { path := "win.iso", size := 1, type := .windows, os_name := "Windows",
      architecture := "Unknown", requires_uefi := true, wim_size := 0,
      is_hybrid := false, has_eltorito := false }
    (cliOptions Scheme.mbr Fsys.fat32 "BOOTUSB" false false)
    rfl rfl rfl

/-- C4: the DirectBlockCopy validator is byte equality on the leading
512-byte windows: it returns true exactly when the windows coincide,
and a single differing byte inside the window makes it return false. -/
theorem validate_first_sector_byte_equality (fs : SysFS) (iso dev : String)
    (hi : fs.pathExists iso = true) (hd : fs.pathExists dev = true) :
    (LinuxWriteStrategy.validate fs iso dev = true ↔
      fs.readWindow iso 0 512 = fs.readWindow dev 0 512)
    ∧ ∀ fi fd_ : FileData, fs.files.lookup iso = some fi →
      fs.files.lookup dev = some fd_ →
      ∀ k, k < 512 → k < fi.size → k < fd_.size → fi.byteAt k ≠ fd_.byteAt k →
      LinuxWriteStrategy.validate fs iso dev = false := by
  constructor
  · simp [LinuxWriteStrategy.validate, hi, hd]
  · intro fi fd_ hfi hfd k hk hki hkd hne
    have hki2 : k < min 512 (fi.size - 0) := by omega
    have hkd2 : k < min 512 (fd_.size - 0) := by omega
    have hwin : fs.readWindow iso 0 512 ≠ fs.readWindow dev 0 512 := by
      intro heq
      have h1 : (fs.readWindow iso 0 512)[k]? = some (fi.byteAt k) := by
        simp only [SysFS.readWindow, hfi, List.getElem?_map]
        rw [List.getElem?_range (by omega)]
        simp
      have h2 : (fs.readWindow dev 0 512)[k]? = some (fd_.byteAt k) := by
        simp only [SysFS.readWindow, hfd, List.getElem?_map]
        rw [List.getElem?_range (by omega)]
        simp
      rw [heq, h2] at h1
      exact hne (Option.some_injective _ h1).symm
    simp only [LinuxWriteStrategy.validate, hi, hd, Bool.and_self, if_true]
    simpa using hwin


/-- Filesystem with identical one-byte image and device contents, for
concrete instantiations of the validator. -/
def c4FS : SysFS :=
  { files := [("a.iso", { size := 1, byteAt := fun _ => 9 }),
              ("/dev/sdb", { size := 1, byteAt := fun _ => 9 })] }

theorem validate_first_sector_byte_equality_witness :
    LinuxWriteStrategy.validate c4FS "a.iso" "/dev/sdb" = true :=
  (validate_first_sector_byte_equality c4FS "a.iso" "/dev/sdb" rfl rfl).1.mpr (by decide)

/-- Every part the split collaborator produces is bounded by the chunk
ceiling it was given. -/
theorem splitParts_le_chunk (c : Nat) : ∀ t part, part ∈ splitParts c t → part ≤ c := by
  intro t
  induction t using Nat.strong_induction_on with
  | _ t ih =>
    intro part hp
    unfold splitParts at hp
    split at hp
    · simp at hp
    · rename_i h
      split at hp
      · rename_i h2
        simp at hp
        omega
      · rename_i h2
        simp at hp
        rcases hp with rfl | hp
        · exact le_refl _
        · exact ih (t - c) (by push_neg at h; omega) part hp

/-- Chunk ceiling in bytes handed to the split collaborator: 3800 MiB. -/
def wimlibChunkBytes : Nat := wimlibChunkMiB * 1024 * 1024

/-- C7: every part produced by splitting the oversized WIM payload at
the 3800 MiB chunk ceiling passed to `wimlib-imagex split` in
`_split_wim_file` is at most 3.8 GiB (stated as `10 * part ≤ 38 GiB`
to keep the bound integral). -/
theorem split_parts_at_most_3_8_gib (total part : Nat)
    (h : part ∈ splitParts wimlibChunkBytes total) :
    10 * part ≤ 38 * 1024 ^ 3 := by
  have hle := splitParts_le_chunk wimlibChunkBytes total part h
  unfold wimlibChunkBytes wimlibChunkMiB at hle
  omega

theorem split_parts_at_most_3_8_gib_witness :
    10 * 1 ≤ 38 * 1024 ^ 3 :=
  split_parts_at_most_3_8_gib 1 1 (by
    unfold splitParts wimlibChunkBytes wimlibChunkMiB
    norm_num)

/-- C8: when the target device path does not exist, `cli.main` exits
with code 1 having invoked no external tool, and
`LinuxWriteStrategy.write` likewise stops at its own device check with
only the two progress events and no tool call. -/
theorem missing_device_fails_before_tools :
    (∀ cenv fs args iso device,
      args.showVersion = false → args.listDevices = false →
      args.iso = some iso → args.device = some device →
      fs.pathExists device = false →
      cliMain cenv fs args = (1, []))
    ∧ (∀ lenv fs iso_path device options, fs.pathExists device = false →
      LinuxWriteStrategy.write lenv fs iso_path device options =
        ([.ev 0 false, .ev 0 true], .ok false)) := by
  constructor
  · intro cenv fs args iso device hv hl hiso hdev hne
    unfold cliMain
    rw [hv, hl, hiso, hdev]
    cases hi : fs.pathExists iso <;> simp [hi, hne]
  · intro lenv fs iso_path device options h
    unfold LinuxWriteStrategy.write
    simp [h]

/-- Linux strategy environment where every external step succeeds and
dd reports nothing, for concrete instantiations. -/
def defaultLenv : LinuxEnv :=
  { mklabelOk := true, mkpartOk := true, setFlagOk := true, mkfsOk := true,
    ddLines := [], ddReturncode := 0 }

/-- Windows strategy environment where every external step succeeds,
for concrete instantiations. -/
def defaultWenv : WindowsEnv :=
  { mklabelOk := true, partsOk := true, extractOk := true, wimInTree := true,
    copyBootOk := true, copyInstallOk := true, copyAllOk := true,
    grubMountOk := true, syncOk := true }

/-- CLI environment with permissions granted and the prompt confirmed,
for concrete instantiations. -/
def defaultCenv : CliEnv :=
  { permOk := true, userConfirm := "YES", interrupted := false,
    aenv := defaultAenv, lenv := defaultLenv, wenv := defaultWenv, listCalls := [] }

theorem missing_device_fails_before_tools_witness :
    cliMain defaultCenv { files := [("u.iso", { size := 4, byteAt := fun _ => 0 })] }
      { iso := some "u.iso", device := some "/dev/sdb", scheme := .gpt,
        fsKind := .fat32, label := "BOOTUSB", quick := false, noValidate := false,
        listDevices := false, showVersion := false } = (1, []) :=
  missing_device_fails_before_tools.1 defaultCenv
    { files := [("u.iso", { size := 4, byteAt := fun _ => 0 })] }
    { iso := some "u.iso", device := some "/dev/sdb", scheme := .gpt,
      fsKind := .fat32, label := "BOOTUSB", quick := false, noValidate := false,
      listDevices := false, showVersion := false }
    "u.iso" "/dev/sdb" rfl rfl rfl rfl (by decide)

/-- Removing a just-created directory from a live set it was fresh for
restores the original live set. -/
theorem rmtree_fresh (s : TmpState) (c : Nat) (l : List Nat)
    (hs : s.live = c :: l) (hl : ∀ x ∈ l, x < c) :
    (s.rmtree c).live = l := by
  unfold TmpState.rmtree
  rw [hs, List.filter_cons_of_neg (by simp)]
  exact List.filter_eq_self.mpr (fun x hx => by simpa using Nat.ne_of_lt (hl x hx))

/-- A copy phase neither leaks its mount-point directory nor disturbs
freshness: the live set is unchanged, well-formedness is kept and the
counter does not decrease. -/
theorem copyPhase_state (ok : Bool) (st : TmpState) (hwf : st.wf) :
    (WindowsWriteStrategy.copyPhase ok st).2.2.live = st.live ∧
    (WindowsWriteStrategy.copyPhase ok st).2.2.wf ∧
    st.counter ≤ (WindowsWriteStrategy.copyPhase ok st).2.2.counter := by
  refine ⟨?_, ?_, ?_⟩
  · exact rmtree_fresh _ st.counter st.live rfl (fun x hx => hwf x hx)
  · intro x hx
    have hx2 : x ∈ (st.counter :: st.live).filter (fun y => decide (y ≠ st.counter)) := hx
    rw [List.mem_filter, List.mem_cons, decide_eq_true_eq] at hx2
    have hxlt : x < st.counter := by
      rcases hx2.1 with rfl | hmem
      · exact absurd rfl hx2.2
      · exact hwf x hmem
    show x < st.counter + 1
    omega
  · show st.counter ≤ st.counter + 1
    omega

/-- The GRUB install phase likewise removes its mount-point directory
and keeps freshness. -/
theorem grubPhase_state (env : WindowsEnv) (st : TmpState) (hwf : st.wf) :
    (WindowsWriteStrategy.grubPhase env st).2.live = st.live ∧
    (WindowsWriteStrategy.grubPhase env st).2.wf ∧
    st.counter ≤ (WindowsWriteStrategy.grubPhase env st).2.counter := by
  refine ⟨?_, ?_, ?_⟩
  · exact rmtree_fresh _ st.counter st.live rfl (fun x hx => hwf x hx)
  · intro x hx
    have hx2 : x ∈ (st.counter :: st.live).filter (fun y => decide (y ≠ st.counter)) := hx
    rw [List.mem_filter, List.mem_cons, decide_eq_true_eq] at hx2
    have hxlt : x < st.counter := by
      rcases hx2.1 with rfl | hmem
      · exact absurd rfl hx2.2
      · exact hwf x hmem
    show x < st.counter + 1
    omega
  · show st.counter ≤ st.counter + 1
    omega

/-- The first boolean a copy phase returns is its success flag. -/
theorem copyPhase_ok (ok : Bool) (st : TmpState) :
    (WindowsWriteStrategy.copyPhase ok st).2.1 = ok := rfl

/-- The finish phase neither leaks a directory nor breaks freshness. -/
theorem finishPhase_state (env : WindowsEnv) (splitWim : Bool)
    (t : List TraceItem) (stc : TmpState) (hc : stc.wf) :
    (WindowsWriteStrategy.finishPhase env splitWim t stc).2.2.live = stc.live ∧
    (WindowsWriteStrategy.finishPhase env splitWim t stc).2.2.wf := by
  obtain ⟨g1, g2, -⟩ := grubPhase_state env stc hc
  unfold WindowsWriteStrategy.finishPhase
  cases hsw : splitWim <;> cases hs : env.syncOk <;> simp [hs, g1, g2, hc]

/-- The try-block body of `_extract_and_copy` neither leaks a
directory nor breaks freshness. -/
theorem extractBody_state (env : WindowsEnv) (splitWim : Bool)
    (st0 : TmpState) (h0 : st0.wf) :
    (WindowsWriteStrategy.extractBody env splitWim st0).2.2.live = st0.live ∧
    (WindowsWriteStrategy.extractBody env splitWim st0).2.2.wf := by
  obtain ⟨b1, b2, -⟩ := copyPhase_state env.copyBootOk st0 h0
  obtain ⟨a1, a2, -⟩ := copyPhase_state env.copyAllOk st0 h0
  obtain ⟨i1, i2, -⟩ :=
    copyPhase_state env.copyInstallOk (WindowsWriteStrategy.copyPhase env.copyBootOk st0).2.2 b2
  unfold WindowsWriteStrategy.extractBody
  cases hex : env.extractOk
  · simp [h0]
  · cases hsw : splitWim
    · cases hca : env.copyAllOk
      · simp only [hca, copyPhase_ok, Bool.not_false, if_pos, Bool.not_true, ite_false,
          ite_true, Bool.false_eq_true, if_false]
        exact ⟨a1, a2⟩
      · simp only [hca, copyPhase_ok, Bool.not_true, Bool.false_eq_true, if_false, ite_false,
          ite_true]
        exact ⟨((finishPhase_state env false _ _ a2).1).trans a1,
          (finishPhase_state env false _ _ a2).2⟩
    · cases hcb : env.copyBootOk
      · simp only [hcb, copyPhase_ok, Bool.not_false, ite_true, Bool.false_eq_true, if_false]
        exact ⟨b1, b2⟩
      · cases hci : env.copyInstallOk
        · simp only [hcb, hci, copyPhase_ok, Bool.not_false, Bool.not_true, ite_true,
            Bool.false_eq_true, if_false]
          exact ⟨i1.trans b1, i2⟩
        · simp only [hcb, hci, copyPhase_ok, Bool.not_true, Bool.false_eq_true, if_false,
            ite_true]
          exact ⟨((finishPhase_state env true _ _ i2).1).trans (i1.trans b1),
            (finishPhase_state env true _ _ i2).2⟩

/-- C9: every ExtractAndSplit run removes the scratch directory it
created on every exit path — success, extraction failure, copy failure
or sync failure alike: the set of live temporary directories after
`_extract_and_copy` equals the set before it. -/
theorem scratch_dir_removed_on_all_paths (env : WindowsEnv) (splitWim : Bool)
    (st : TmpState) (hwf : st.wf) :
    (WindowsWriteStrategy.extractAndCopy env splitWim st).2.2.live = st.live := by
  have h0 : TmpState.wf { counter := st.counter + 1, live := st.counter :: st.live } := by
    intro x hx
    have hx2 : x ∈ st.counter :: st.live := hx
    show x < st.counter + 1
    rcases List.mem_cons.mp hx2 with rfl | hmem
    · omega
    · have := hwf x hmem
      omega
  obtain ⟨e1, _⟩ := extractBody_state env splitWim
    { counter := st.counter + 1, live := st.counter :: st.live } h0
  unfold WindowsWriteStrategy.extractAndCopy TmpState.mkdtemp
  exact rmtree_fresh _ st.counter st.live e1 (fun x hx => hwf x hx)

theorem scratch_dir_removed_on_all_paths_witness :
    (WindowsWriteStrategy.extractAndCopy defaultWenv true
      { counter := 0, live := [] }).2.2.live = [] :=
  scratch_dir_removed_on_all_paths defaultWenv true { counter := 0, live := [] }
    (by intro x hx; simp at hx)

/-- C1: an image whose analysis reports a WIM payload above 4 GiB is
necessarily classified Windows, the CLI `run_write` overrides the
requested filesystem to NTFS, and the Windows formatting step produces
the dual FAT32-boot + NTFS layout — so FAT32 is never the sole
filesystem of the device. -/
theorem large_wim_never_sole_fat32 (env : AnalyzerEnv) (fs : SysFS) (p : String)
    (out : AnalyzeOut) (h : ImageAnalyzer.analyze env fs p = .ok out)
    (hbig : 4 * 1024 ^ 3 < out.info.wim_size) :
    out.info.type = IsoType.windows
    ∧ (∀ requested, cliEffectiveFs out.info.wim_size requested = Fsys.ntfs)
    ∧ WindowsWriteStrategy.partitionLayout (needsSplit out.info.wim_size) =
        [Fsys.fat32, Fsys.ntfs]
    ∧ ∀ b, WindowsWriteStrategy.partitionLayout b ≠ [Fsys.fat32] := by
  have hns : needsSplit out.info.wim_size = true := by
    unfold needsSplit
    simpa using hbig
  refine ⟨?_, ?_, ?_, ?_⟩
  · unfold ImageAnalyzer.analyze at h
    split at h
    · exact absurd h (by simp)
    · split at h
      · obtain rfl : _ = out := by simpa using h
        simp at hbig
      · split at h
        · obtain rfl : _ = out := by simpa using h
          simp at hbig
        · dsimp only at h
          split at h
          · obtain rfl : _ = out := by simpa using h
            rfl
          · split at h
            · obtain rfl : _ = out := by simpa using h
              split at hbig <;> simp at hbig
            · obtain rfl : _ = out := by simpa using h
              split at hbig <;> simp at hbig
  · intro requested
    unfold cliEffectiveFs
    rw [hns]
    rfl
  · unfold WindowsWriteStrategy.partitionLayout
    rw [hns]
    rfl
  · intro b
    cases b <;> simp [WindowsWriteStrategy.partitionLayout]

/-- Analyzer environment reporting a 5 GiB `install.wim`, for concrete
instantiations. -/
def c1Aenv : AnalyzerEnv :=
  { fileToolOut := fun _ => "", windowsUefi := fun _ => false,
    wimSize := fun _ => 5 * 1024 ^ 3, readFails := fun _ => false }

/-- A file ending just after the PVD offset whose signature window is
exactly the `BOOTMGR` marker, for concrete instantiations. -/
def c1FS : SysFS :=
  { files := [("win.iso",
      { size := 32775,
        byteAt := fun i => [66, 79, 79, 84, 77, 71, 82].getD (i - 32768) 0 })] }

/-- The analysis result of `c1FS`. -/
def c1Out : AnalyzeOut :=
  { info := { path := "win.iso", size := 32775, type := .windows,
              os_name := "Windows", architecture := "Unknown",
              requires_uefi := false, wim_size := 5 * 1024 ^ 3,
              is_hybrid := false, has_eltorito := false },
    reads := [(32768, 2048)],
    probes := [.fileTool, .loopSetup, .sevenZList] }

theorem large_wim_never_sole_fat32_witness :
    WindowsWriteStrategy.partitionLayout (needsSplit c1Out.info.wim_size) =
      [Fsys.fat32, Fsys.ntfs] :=
  (large_wim_never_sole_fat32 c1Aenv c1FS "win.iso" c1Out (by rfl) (by decide)).2.2.1

/-- The boolean monotonicity check agrees with `List.Chain'`. -/
theorem nonDecB_iff : ∀ l : List Nat, nonDecB l = true ↔ List.Chain' (· ≤ ·) l
  | [] => by simp [nonDecB]
  | [a] => by simp [nonDecB]
  | a :: b :: rest => by
    have ih := nonDecB_iff (b :: rest)
    simp [nonDecB, ih, List.chain'_cons]

/-- With a non-zero image size, the dd monitor loop emits exactly one
event per parsed byte count, with the capped-percent formula, and does
not abort. -/
theorem ddProgress_events (s : Nat) (hs : s ≠ 0) :
    ∀ lines : List (Option Nat),
      (ddProgress s lines).1 =
        (lines.filterMap id).map (fun b => TraceItem.ev (min 99 (b * 100 / s)) false) ∧
      (ddProgress s lines).2 = false
  | [] => by simp [ddProgress]
  | none :: rest => by simpa [ddProgress] using ddProgress_events s hs rest
  | some b :: rest => by
    have ih := ddProgress_events s hs rest
    simp [ddProgress, hs, ih.1, ih.2]

/-- Without any parsed byte count the dd monitor loop emits nothing
and does not abort, whatever the image size. -/
theorem ddProgress_no_reports (s : Nat) :
    ∀ lines : List (Option Nat), lines.filterMap id = [] →
      (ddProgress s lines).1 = [] ∧ (ddProgress s lines).2 = false
  | [] => by simp [ddProgress]
  | none :: rest => by
    intro h
    simpa [ddProgress] using ddProgress_no_reports s rest (by simpa using h)
  | some b :: rest => by
    intro h
    simp at h

/-- The dd monitor loop aborts only on a zero image size with at least
one parsed byte count. -/
theorem ddProgress_abort (s : Nat) :
    ∀ lines : List (Option Nat), (ddProgress s lines).2 = true →
      s = 0 ∧ ∃ b, b ∈ lines.filterMap id
  | [] => by simp [ddProgress]
  | none :: rest => by
    intro h
    have ih := ddProgress_abort s rest (by simpa [ddProgress] using h)
    simpa using ih
  | some b :: rest => by
    intro h
    by_cases hs : s = 0
    · exact ⟨hs, b, by simp⟩
    · have h2 : (ddProgress s (some b :: rest)).2 = (ddProgress s rest).2 := by
        simp [ddProgress, hs]
      have ih := ddProgress_abort s rest (h2 ▸ h)
      exact ⟨ih.1, ih.2.imp (fun c hc => by simp [hc])⟩

/-- Events of a pure dd-event list. -/
theorem eventsOf_map_ev (g : Nat → Nat) :
    ∀ l : List Nat,
      eventsOf (l.map (fun b => TraceItem.ev (g b) false)) = l.map (fun b => (g b, false))
  | [] => by simp
  | a :: rest => by simp [eventsOf_map_ev g rest]

/-- Sufficient conditions for the amended progress contract: the event
list splits off a terminal event, the non-terminal percents form a
non-decreasing chain, and the terminal event is 100% or a failure. -/
theorem amendedContract_intro (tr : List TraceItem) (E : List (Nat × Bool))
    (a : Nat) (f : Bool) (hev : eventsOf tr = E ++ [(a, f)])
    (hchain : List.Chain' (· ≤ ·) (E.map Prod.fst))
    (hfin : a = 100 ∨ f = true) :
    amendedContractB tr = true := by
  unfold amendedContractB percentsOf finalEventOkB
  rw [hev]
  simp only [List.map_append, List.map_cons, List.map_nil, List.dropLast_concat,
    List.getLast?_concat, Bool.and_eq_true, nonDecB_iff]
  refine ⟨hchain, ?_⟩
  rcases hfin with rfl | rfl <;> simp

/-- The capped dd percent formula is monotone in the byte count. -/
theorem ddPercent_mono (s : Nat) {a b : Nat} (hab : a ≤ b) :
    min 99 (a * 100 / s) ≤ min 99 (b * 100 / s) :=
  min_le_min (le_refl 99) (Nat.div_le_div_right (Nat.mul_le_mul_right 100 hab))

/-- Chain property of a literal percent prefix followed by the capped
dd percents of a non-decreasing report sequence that starts at or above
the 5% mark. -/
theorem chain_prefix_dd (pre : List Nat) (reports : List Nat) (s : Nat)
    (hpre : List.Chain' (· ≤ ·) pre)
    (hlast : ∀ x ∈ pre.getLast?, x ≤ 5)
    (hmono : List.Chain' (· ≤ ·) reports)
    (h5 : ∀ b ∈ reports, 5 ≤ b * 100 / s) :
    List.Chain' (· ≤ ·) (pre ++ reports.map (fun b => min 99 (b * 100 / s))) := by
  rw [List.chain'_append]
  refine ⟨hpre, ?_, ?_⟩
  · rw [List.chain'_map]
    exact hmono.imp (fun a b hab => ddPercent_mono s hab)
  · intro x hx y hy
    rw [List.head?_map] at hy
    cases hrep : reports.head? with
    | none =>
      rw [hrep] at hy
      simp at hy
    | some b =>
      rw [hrep] at hy
      simp at hy
      have hbmem : b ∈ reports := List.mem_of_mem_head? (by rw [hrep]; rfl)
      have h5b := h5 b hbmem
      have hx5 : x ≤ 5 := hlast x hx
      have hy5 : (5 : Nat) ≤ min 99 (b * 100 / s) := le_min (by norm_num) h5b
      rw [← hy]
      exact le_trans hx5 hy5

/-- Copy phases emit no progress events (only mount/umount calls). -/
theorem eventsOf_copyPhase (ok : Bool) (st : TmpState) :
    eventsOf (WindowsWriteStrategy.copyPhase ok st).1 = [] := by
  cases ok <;> simp [WindowsWriteStrategy.copyPhase]

/-- The GRUB phase emits no progress events. -/
theorem eventsOf_grubPhase (env : WindowsEnv) (st : TmpState) :
    eventsOf (WindowsWriteStrategy.grubPhase env st).1 = [] := by
  cases h : env.grubMountOk <;> simp [WindowsWriteStrategy.grubPhase, h]

/-- Events appended by the finish phase: 95%, then 100% on success or
the failure event when the sync raises. -/
theorem finishPhase_events (env : WindowsEnv) (sw : Bool) (t : List TraceItem)
    (stc : TmpState) :
    eventsOf (WindowsWriteStrategy.finishPhase env sw t stc).1 =
      eventsOf t ++ [(95, false)] ++
        (if env.syncOk then [(100, false)] else [(0, true)]) := by
  unfold WindowsWriteStrategy.finishPhase
  cases hs : env.syncOk <;> cases hsw : sw <;> simp [hs, eventsOf_grubPhase]

/-- Events of `_format_for_windows`: the optional scheme-override
notice, the 5% event, then 10% on success or the failure event; the
result is true exactly when both external steps succeed. -/
theorem formatForWindows_events (env : WindowsEnv) (opts : WriteOptions) (sw : Bool) :
    eventsOf (WindowsWriteStrategy.formatForWindows env opts sw).1 =
      (if opts.uefi.getD true && decide (opts.scheme.getD Scheme.gpt ≠ Scheme.gpt)
       then [(0, false)] else [])
      ++ [(5, false)]
      ++ (if (WindowsWriteStrategy.formatForWindows env opts sw).2
          then [(10, false)] else [(0, true)])
    ∧ (WindowsWriteStrategy.formatForWindows env opts sw).2 =
        (env.mklabelOk && env.partsOk) := by
  unfold WindowsWriteStrategy.formatForWindows
  by_cases hu : opts.uefi.getD true = true ∧ ¬ opts.scheme.getD Scheme.gpt = Scheme.gpt <;>
    cases h1 : env.mklabelOk <;> cases h2 : env.partsOk <;> cases hsw2 : sw <;>
      simp [hu, h1, h2, hsw2, Bool.and_eq_true, decide_eq_true_eq]

/-- Shape of the try-block events of `_extract_and_copy`: some
non-decreasing prefix starting at 15%, then a terminal event that is
100% or a failure. -/
theorem extractBody_events (env : WindowsEnv) (sw : Bool) (st0 : TmpState) :
    ∃ E : List (Nat × Bool), ∃ a : Nat, ∃ f : Bool,
      eventsOf (WindowsWriteStrategy.extractBody env sw st0).1 = E ++ [(a, f)] ∧
      List.Chain' (· ≤ ·) (E.map Prod.fst) ∧
      (∀ x ∈ (E.map Prod.fst).head?, 15 ≤ x) ∧
      (a = 100 ∨ f = true) := by
  unfold WindowsWriteStrategy.extractBody
  cases hex : env.extractOk
  · exact ⟨[(15, false)], 0, true, by simp, by simp, by simp, Or.inr rfl⟩
  · cases hsw : sw
    · cases hca : env.copyAllOk
      · exact ⟨[(15, false), (60, false)], 0, true,
          by simp [hca, copyPhase_ok, eventsOf_copyPhase], by simp, by simp, Or.inr rfl⟩
      · cases hsy : env.syncOk
        · exact ⟨[(15, false), (60, false), (95, false)], 0, true,
            by simp [hca, hsy, copyPhase_ok, eventsOf_copyPhase, finishPhase_events],
            by simp, by simp, Or.inr rfl⟩
        · exact ⟨[(15, false), (60, false), (95, false)], 100, false,
            by simp [hca, hsy, copyPhase_ok, eventsOf_copyPhase, finishPhase_events],
            by simp, by simp, Or.inl rfl⟩
    · cases hwt : env.wimInTree
      · cases hcb : env.copyBootOk
        · exact ⟨[(15, false), (50, false)], 0, true,
            by simp [hwt, hcb, copyPhase_ok, eventsOf_copyPhase], by simp, by simp, Or.inr rfl⟩
        · cases hci : env.copyInstallOk
          · exact ⟨[(15, false), (50, false), (70, false)], 0, true,
              by simp [hwt, hcb, hci, copyPhase_ok, eventsOf_copyPhase], by simp, by simp,
              Or.inr rfl⟩
          · cases hsy : env.syncOk
            · exact ⟨[(15, false), (50, false), (70, false), (95, false)], 0, true,
                by simp [hwt, hcb, hci, hsy, copyPhase_ok, eventsOf_copyPhase,
                  finishPhase_events],
                by simp, by simp, Or.inr rfl⟩
            · exact ⟨[(15, false), (50, false), (70, false), (95, false)], 100, false,
                by simp [hwt, hcb, hci, hsy, copyPhase_ok, eventsOf_copyPhase,
                  finishPhase_events],
                by simp, by simp, Or.inl rfl⟩
      · cases hcb : env.copyBootOk
        · exact ⟨[(15, false), (30, false), (50, false)], 0, true,
            by simp [hwt, hcb, copyPhase_ok, eventsOf_copyPhase], by simp, by simp,
            Or.inr rfl⟩
        · cases hci : env.copyInstallOk
          · exact ⟨[(15, false), (30, false), (50, false), (70, false)], 0, true,
              by simp [hwt, hcb, hci, copyPhase_ok, eventsOf_copyPhase], by simp, by simp,
              Or.inr rfl⟩
          · cases hsy : env.syncOk
            · exact ⟨[(15, false), (30, false), (50, false), (70, false), (95, false)], 0,
                true,
                by simp [hwt, hcb, hci, hsy, copyPhase_ok, eventsOf_copyPhase,
                  finishPhase_events],
                by simp, by simp, Or.inr rfl⟩
            · exact ⟨[(15, false), (30, false), (50, false), (70, false), (95, false)], 100,
                false,
                by simp [hwt, hcb, hci, hsy, copyPhase_ok, eventsOf_copyPhase,
                  finishPhase_events],
                by simp, by simp, Or.inl rfl⟩

/-- An existing path always analyzes successfully. -/
theorem analyze_ok_of_exists (env : AnalyzerEnv) (fs : SysFS) (p : String)
    (h : fs.pathExists p = true) :
    ∃ out, ImageAnalyzer.analyze env fs p = .ok out := by
  unfold ImageAnalyzer.analyze
  rw [h]
  simp only [not_true, if_false, Bool.true_eq_false, ite_false, ite_true]
  split_ifs <;> exact ⟨_, rfl⟩

/-- The try-block trace of `_extract_and_copy` is the body trace. -/
theorem extractAndCopy_trace (env : WindowsEnv) (sw : Bool) (st : TmpState) :
    (WindowsWriteStrategy.extractAndCopy env sw st).1 =
      (WindowsWriteStrategy.extractBody env sw st.mkdtemp.2).1 := rfl

/-- A Windows strategy run satisfies the amended progress contract
whenever the image it re-analyzes exists. -/
theorem windowsWrite_amended (wenv : WindowsEnv) (aenv : AnalyzerEnv) (fs : SysFS)
    (iso device : String) (opts : WriteOptions) (st : TmpState)
    (hiso : fs.pathExists iso = true) :
    amendedContractB (WindowsWriteStrategy.write wenv aenv fs iso device opts st).1 = true := by
  obtain ⟨out, hout⟩ := analyze_ok_of_exists aenv fs iso hiso
  obtain ⟨hfe, hfok⟩ := formatForWindows_events wenv opts (needsSplit out.info.wim_size)
  obtain ⟨E, a, f, hev, hch, hhd, hfin⟩ :=
    extractBody_events wenv (needsSplit out.info.wim_size) st.mkdtemp.2
  unfold WindowsWriteStrategy.write
  rw [hout]
  cases hub : (opts.uefi.getD true && decide (opts.scheme.getD Scheme.gpt ≠ Scheme.gpt)) <;>
    cases hfmt : (WindowsWriteStrategy.formatForWindows wenv opts
      (needsSplit out.info.wim_size)).2 <;>
    simp only [hub, hfmt] at hfe <;> simp at hfe
  · exact amendedContract_intro _ [(0, false), (5, false)] 0 true
      (by simp [hfmt, hfe]) (by simp) (Or.inr rfl)
  · refine amendedContract_intro _ ([(0, false), (5, false), (10, false)] ++ E) a f
      ?_ ?_ hfin
    · simp [hfmt, extractAndCopy_trace, hfe, hev]
    · rw [List.map_append, List.chain'_append]
      refine ⟨by simp, hch, ?_⟩
      intro x hx y hy
      simp at hx
      subst hx
      have := hhd y hy
      omega
  · exact amendedContract_intro _ [(0, false), (0, false), (5, false)] 0 true
      (by simp [hfmt, hfe]) (by simp) (Or.inr rfl)
  · refine amendedContract_intro _ ([(0, false), (0, false), (5, false), (10, false)] ++ E) a f
      ?_ ?_ hfin
    · simp [hfmt, extractAndCopy_trace, hfe, hev]
    · rw [List.map_append, List.chain'_append]
      refine ⟨by simp, hch, ?_⟩
      intro x hx y hy
      simp at hx
      subst hx
      have := hhd y hy
      omega

/-- Events of the Linux `_format_device`: the 0% notice then 2% on
success or the percent-0 failure event. -/
theorem formatDevice_events (env : LinuxEnv) (opts : WriteOptions) :
    eventsOf (LinuxWriteStrategy.formatDevice env opts).1 =
      [(0, false)] ++ (if (LinuxWriteStrategy.formatDevice env opts).2
                       then [(2, false)] else [(0, true)]) := by
  unfold LinuxWriteStrategy.formatDevice
  cases h1 : env.mklabelOk <;> cases h2 : env.mkpartOk <;> cases h3 : env.setFlagOk <;>
    cases h4 : env.mkfsOk <;> cases hsch : opts.scheme.getD Scheme.gpt <;>
      cases hfk : opts.filesystem.getD Fsys.fat32 <;>
        simp [h1, h2, h3, h4, hsch, hfk]

/-- A Linux strategy run satisfies the amended progress contract when
the image exists, the dd byte reports are non-decreasing and every
report is at least 5% of the image size. -/
theorem linuxWrite_amended (lenv : LinuxEnv) (fs : SysFS) (iso device : String)
    (opts : WriteOptions) (hiso : fs.pathExists iso = true)
    (hchain : List.Chain' (· ≤ ·) (lenv.ddLines.filterMap id))
    (h5 : ∀ b ∈ lenv.ddLines.filterMap id, 5 ≤ b * 100 / fs.getsize iso) :
    amendedContractB (LinuxWriteStrategy.write lenv fs iso device opts).1 = true := by
  have hfde := formatDevice_events lenv opts
  unfold LinuxWriteStrategy.write
  cases hdev : fs.pathExists device
  · exact amendedContract_intro _ [(0, false)] 0 true (by simp [hdev]) (by simp) (Or.inr rfl)
  · by_cases hrep : lenv.ddLines.filterMap id = []
    · have hnr := ddProgress_no_reports (fs.getsize iso) lenv.ddLines hrep
      cases hfo : opts.format.getD true
      · by_cases hrc : lenv.ddReturncode = 0
        · exact amendedContract_intro _ [(0, false), (5, false)] 100 false
            (by simp [hdev, hiso, hfo, hnr.1, hnr.2, hrc]) (by simp) (Or.inl rfl)
        · exact amendedContract_intro _ [(0, false), (5, false)] 0 true
            (by simp [hdev, hiso, hfo, hnr.1, hnr.2, hrc]) (by simp) (Or.inr rfl)
      · cases hfmt : (LinuxWriteStrategy.formatDevice lenv opts).2
        · rw [hfmt] at hfde
          simp at hfde
          exact amendedContract_intro _ [(0, false), (0, false)] 0 true
            (by simp [hdev, hiso, hfo, hfmt, hfde]) (by simp) (Or.inr rfl)
        · rw [hfmt] at hfde
          simp at hfde
          by_cases hrc : lenv.ddReturncode = 0
          · exact amendedContract_intro _ [(0, false), (0, false), (2, false), (5, false)]
              100 false
              (by simp [hdev, hiso, hfo, hfmt, hfde, hnr.1, hnr.2, hrc]) (by simp)
              (Or.inl rfl)
          · exact amendedContract_intro _ [(0, false), (0, false), (2, false), (5, false)]
              0 true
              (by simp [hdev, hiso, hfo, hfmt, hfde, hnr.1, hnr.2, hrc]) (by simp)
              (Or.inr rfl)
    · have hs0 : fs.getsize iso ≠ 0 := by
        obtain ⟨b, hb⟩ := List.exists_mem_of_ne_nil _ hrep
        intro h0
        have h5b := h5 b hb
        rw [h0] at h5b
        simp at h5b
      have hde := ddProgress_events (fs.getsize iso) hs0 lenv.ddLines
      have hchain2 : List.Chain' (· ≤ ·)
          (([0, 5] : List Nat) ++ (lenv.ddLines.filterMap id).map
            (fun b => min 99 (b * 100 / fs.getsize iso))) :=
        chain_prefix_dd _ _ _ (by simp) (by intro x hx; simp at hx; omega) hchain h5
      have hchain4 : List.Chain' (· ≤ ·)
          (([0, 0, 2, 5] : List Nat) ++ (lenv.ddLines.filterMap id).map
            (fun b => min 99 (b * 100 / fs.getsize iso))) :=
        chain_prefix_dd _ _ _ (by simp) (by intro x hx; simp at hx; omega) hchain h5
      cases hfo : opts.format.getD true
      · by_cases hrc : lenv.ddReturncode = 0
        · refine amendedContract_intro _
            ([(0, false), (5, false)] ++ (lenv.ddLines.filterMap id).map
              (fun b => (min 99 (b * 100 / fs.getsize iso), false))) 100 false
            ?_ ?_ (Or.inl rfl)
          · simp [hdev, hiso, hfo, hde.1, hde.2, hrc, eventsOf_map_ev]
          · simpa [List.map_map, Function.comp] using hchain2
        · refine amendedContract_intro _
            ([(0, false), (5, false)] ++ (lenv.ddLines.filterMap id).map
              (fun b => (min 99 (b * 100 / fs.getsize iso), false))) 0 true
            ?_ ?_ (Or.inr rfl)
          · simp [hdev, hiso, hfo, hde.1, hde.2, hrc, eventsOf_map_ev]
          · simpa [List.map_map, Function.comp] using hchain2
      · cases hfmt : (LinuxWriteStrategy.formatDevice lenv opts).2
        · rw [hfmt] at hfde
          simp at hfde
          exact amendedContract_intro _ [(0, false), (0, false)] 0 true
            (by simp [hdev, hiso, hfo, hfmt, hfde]) (by simp) (Or.inr rfl)
        · rw [hfmt] at hfde
          simp at hfde
          by_cases hrc : lenv.ddReturncode = 0
          · refine amendedContract_intro _
              ([(0, false), (0, false), (2, false), (5, false)] ++
                (lenv.ddLines.filterMap id).map
                  (fun b => (min 99 (b * 100 / fs.getsize iso), false))) 100 false
              ?_ ?_ (Or.inl rfl)
            · simp [hdev, hiso, hfo, hfmt, hfde, hde.1, hde.2, hrc, eventsOf_map_ev]
            · simpa [List.map_map, Function.comp] using hchain4
          · refine amendedContract_intro _
              ([(0, false), (0, false), (2, false), (5, false)] ++
                (lenv.ddLines.filterMap id).map
                  (fun b => (min 99 (b * 100 / fs.getsize iso), false))) 0 true
              ?_ ?_ (Or.inr rfl)
            · simp [hdev, hiso, hfo, hfmt, hfde, hde.1, hde.2, hrc, eventsOf_map_ev]
            · simpa [List.map_map, Function.comp] using hchain4

/-- Linux strategy environment whose single dd report covers under 5%
of the image, for the concrete run below. -/
def c3Lenv : LinuxEnv :=
  { mklabelOk := true, mkpartOk := true, setFlagOk := true, mkfsOk := true,
    ddLines := [some 4194304], ddReturncode := 0 }

/-- A 4 GiB image and an existing target device. -/
def c3FS : SysFS :=
  { files := [("ubuntu.iso", { size := 4294967296, byteAt := fun _ => 0 }),
              ("/dev/sdb", { size := 0, byteAt := fun _ => 0 })] }

/-- CLI-shaped options for the concrete run below. -/
def c3Opts : WriteOptions := cliOptions Scheme.gpt Fsys.fat32 "BOOTUSB" false false

/-- C3 as stated is false on the code: a successful DirectBlockCopy
run whose first dd report covers under 5% of the image emits the 5%
"Writing" event and then a lower dd-derived percent (here 0), so the
delivered percent stream is not non-decreasing even though the run
ends at 100%. -/
theorem progress_contract_counterexample :
    progressContractB
      (LinuxWriteStrategy.write c3Lenv c3FS "ubuntu.iso" "/dev/sdb" c3Opts).1 = false := by
  decide

/-- C3 (amended): within a single strategy run the progress percents
are non-decreasing up to (excluding) the terminal event, and the
terminal event has percent 100 or is an explicit failure event.  For
an ExtractAndSplit run this is unconditional (given the re-analyzed
image exists); for a DirectBlockCopy run it additionally requires the
dd byte reports to be non-decreasing with every report at or above the
5% mark of the image size — the counterexample shows the contract is
violated below that mark. -/
theorem progress_contract_amended :
    (∀ (lenv : LinuxEnv) (fs : SysFS) (iso device : String) (opts : WriteOptions),
      fs.pathExists iso = true →
      List.Chain' (· ≤ ·) (lenv.ddLines.filterMap id) →
      (∀ b ∈ lenv.ddLines.filterMap id, 5 ≤ b * 100 / fs.getsize iso) →
      amendedContractB (LinuxWriteStrategy.write lenv fs iso device opts).1 = true)
    ∧ (∀ (wenv : WindowsEnv) (aenv : AnalyzerEnv) (fs : SysFS) (iso device : String)
        (opts : WriteOptions) (st : TmpState),
      fs.pathExists iso = true →
      amendedContractB (WindowsWriteStrategy.write wenv aenv fs iso device opts st).1 = true) :=
  ⟨fun lenv fs iso device opts hiso hchain h5 =>
      linuxWrite_amended lenv fs iso device opts hiso hchain h5,
    fun wenv aenv fs iso device opts st hiso =>
      windowsWrite_amended wenv aenv fs iso device opts st hiso⟩

/-- Linux strategy environment with two in-range dd reports, for the
amended-contract witness run. -/
def c3WitLenv : LinuxEnv :=
  { mklabelOk := true, mkpartOk := true, setFlagOk := true, mkfsOk := true,
    ddLines := [some 300, some 400], ddReturncode := 0 }

/-- A small image and target device for the amended-contract witness
run. -/
def c3WitFS : SysFS :=
  { files := [("w.iso", { size := 1000, byteAt := fun _ => 0 }),
              ("/dev/sdd", { size := 0, byteAt := fun _ => 0 })] }

theorem progress_contract_amended_witness :
    amendedContractB
      (LinuxWriteStrategy.write c3WitLenv c3WitFS "w.iso" "/dev/sdd"
        (cliOptions Scheme.gpt Fsys.fat32 "BOOTUSB" false false)).1 = true :=
  progress_contract_amended.1 c3WitLenv c3WitFS "w.iso" "/dev/sdd"
    (cliOptions Scheme.gpt Fsys.fat32 "BOOTUSB" false false)
    (by decide)
    (by
      have h : List.filterMap id c3WitLenv.ddLines = [300, 400] := rfl
      rw [h]
      exact List.chain'_cons.mpr ⟨by norm_num, List.chain'_singleton _⟩)
    (by decide)

/-- Linux strategy environment of a successful run, for the concrete
sync-ordering run below. -/
def c6Lenv : LinuxEnv :=
  { mklabelOk := true, mkpartOk := true, setFlagOk := true, mkfsOk := true,
    ddLines := [some 2000000000], ddReturncode := 0 }

/-- A 4 GB image and an existing target device for the sync-ordering
run. -/
def c6FS : SysFS :=
  { files := [("mint.iso", { size := 4000000000, byteAt := fun _ => 0 }),
              ("/dev/sdc", { size := 0, byteAt := fun _ => 0 })] }

/-- CLI-shaped options for the sync-ordering run. -/
def c6Opts : WriteOptions := cliOptions Scheme.gpt Fsys.fat32 "BOOTUSB" false false

/-- C6's ordering claim as stated is false on the code: in a
successful DirectBlockCopy run the 100% event is emitted right after
`process.wait()` returns 0, and the standalone storage-sync call is
issued only afterwards, so no sync call precedes the 100% event. -/
theorem hundred_before_sync_counterexample :
    hundredOnlyAfterSyncB
      (LinuxWriteStrategy.write c6Lenv c6FS "mint.iso" "/dev/sdc" c6Opts).1 = false := by
  decide

/-- Every event the dd monitor loop emits has percent at most 99 and
is not an error-path emission. -/
theorem ddProgress_events_bounded (s : Nat) :
    ∀ (lines : List (Option Nat)) (p : Nat) (f : Bool),
      TraceItem.ev p f ∈ (ddProgress s lines).1 → p ≤ 99 ∧ f = false
  | [] => by simp [ddProgress]
  | none :: rest => by
    intro p f hp
    exact ddProgress_events_bounded s rest p f (by simpa [ddProgress] using hp)
  | some b :: rest => by
    intro p f hp
    by_cases hs : s = 0
    · simp [ddProgress, hs] at hp
    · rw [show (ddProgress s (some b :: rest)).1 =
          .ev (min 99 (b * 100 / s)) false :: (ddProgress s rest).1 from by
        simp [ddProgress, hs]] at hp
      rcases List.mem_cons.mp hp with heq | hmem
      · injection heq with h1 h2
        subst h1
        subst h2
        exact ⟨min_le_left _ _, rfl⟩
      · exact ddProgress_events_bounded s rest p f hmem

/-- No event of the Linux `_format_device` trace carries percent 100. -/
theorem formatDevice_no100 (env : LinuxEnv) (opts : WriteOptions) :
    (LinuxWriteStrategy.formatDevice env opts).1.all (fun t => !t.isEv100) = true := by
  unfold LinuxWriteStrategy.formatDevice
  cases h1 : env.mklabelOk <;> cases h2 : env.mkpartOk <;> cases h3 : env.setFlagOk <;>
    cases h4 : env.mkfsOk <;> cases hsch : opts.scheme.getD Scheme.gpt <;>
      cases hfk : opts.filesystem.getD Fsys.fat32 <;>
        simp [h1, h2, h3, h4, hsch, hfk, TraceItem.isEv100]

/-- A trace with no 100% event under `all` has none under `any`. -/
theorem all_not100_any_false (l : List TraceItem)
    (h : l.all (fun t => !t.isEv100) = true) :
    l.any TraceItem.isEv100 = false := by
  rw [List.any_eq_false]
  intro t ht
  have := List.all_eq_true.mp h t ht
  simpa using this

/-- In a DirectBlockCopy run that reaches the transfer, each parsed dd
byte count `b` yields exactly the event with percent
`min 99 (b * 100 / image_size)` somewhere in the trace. -/
theorem linuxWrite_formula (lenv : LinuxEnv) (fs : SysFS) (iso device : String)
    (opts : WriteOptions) (b : Nat)
    (hdev : fs.pathExists device = true) (hiso : fs.pathExists iso = true)
    (hfmt : opts.format.getD true = false ∨
      (LinuxWriteStrategy.formatDevice lenv opts).2 = true)
    (hs0 : fs.getsize iso ≠ 0)
    (hb : b ∈ lenv.ddLines.filterMap id) :
    TraceItem.ev (min 99 (b * 100 / fs.getsize iso)) false ∈
      (LinuxWriteStrategy.write lenv fs iso device opts).1 := by
  have hde := ddProgress_events (fs.getsize iso) hs0 lenv.ddLines
  have hmem : TraceItem.ev (min 99 (b * 100 / fs.getsize iso)) false ∈
      (ddProgress (fs.getsize iso) lenv.ddLines).1 := by
    rw [hde.1]
    exact List.mem_map_of_mem _ hb
  unfold LinuxWriteStrategy.write
  rcases hfmt with hfo | hfmt2
  · by_cases hrc : lenv.ddReturncode = 0 <;>
      simp [hdev, hiso, hfo, hde.2, hrc, hmem]
  · cases hfo2 : opts.format.getD true
    · by_cases hrc : lenv.ddReturncode = 0 <;>
        simp [hdev, hiso, hfo2, hde.2, hrc, hmem]
    · by_cases hrc : lenv.ddReturncode = 0 <;>
        simp [hdev, hiso, hfo2, hfmt2, hde.2, hrc, hmem]

/-- The 100% event appears in a DirectBlockCopy trace only when dd
exited with code 0; it is then the last event, every earlier item is
not a 100% event, the dd invocation precedes it, and the standalone
sync call is issued directly after it. -/
theorem linuxWrite_hundred (lenv : LinuxEnv) (fs : SysFS) (iso device : String)
    (opts : WriteOptions) :
    (LinuxWriteStrategy.write lenv fs iso device opts).1.any TraceItem.isEv100 = true →
      lenv.ddReturncode = 0 ∧
      ∃ pre, (LinuxWriteStrategy.write lenv fs iso device opts).1 =
          pre ++ [.ev 100 false, .call .syncStorage] ∧
        TraceItem.call .ddTransfer ∈ pre ∧ pre.all (fun t => !t.isEv100) = true := by
  have hddall : (ddProgress (fs.getsize iso) lenv.ddLines).1.all
      (fun t => !t.isEv100) = true := by
    rw [List.all_eq_true]
    intro t ht
    cases t with
    | call c => rfl
    | ev p f =>
      have hbnd := ddProgress_events_bounded (fs.getsize iso) lenv.ddLines p f ht
      simp [TraceItem.isEv100]
      omega
  have hddany := all_not100_any_false _ hddall
  have hfall := formatDevice_no100 lenv opts
  have hfany := all_not100_any_false _ hfall
  unfold LinuxWriteStrategy.write
  cases hdev : fs.pathExists device
  · intro h
    simp [hdev, TraceItem.isEv100] at h
  · cases hisop : fs.pathExists iso
    · intro h
      simp [hdev, hisop, TraceItem.isEv100] at h
    · cases hzd : (ddProgress (fs.getsize iso) lenv.ddLines).2
      · cases hfo : opts.format.getD true
        · by_cases hrc : lenv.ddReturncode = 0
          · intro _
            refine ⟨hrc, [.ev 0 false, .call .udisksctlUnmount, .ev 5 false,
              .call .ddTransfer] ++ (ddProgress (fs.getsize iso) lenv.ddLines).1,
              ?_, ?_, ?_⟩
            · simp [hdev, hisop, hfo, hzd, hrc]
            · simp
            · rw [List.all_append, Bool.and_eq_true]
              exact ⟨by simp [TraceItem.isEv100], hddall⟩
          · intro h
            simp [hdev, hisop, hfo, hzd, hrc, TraceItem.isEv100, List.any_append,
              hddany] at h
        · cases hfmt : (LinuxWriteStrategy.formatDevice lenv opts).2
          · intro h
            simp [hdev, hisop, hfo, hfmt, TraceItem.isEv100, List.any_append, hfany] at h
          · by_cases hrc : lenv.ddReturncode = 0
            · intro _
              refine ⟨hrc, ([.ev 0 false, .call .udisksctlUnmount] ++
                (LinuxWriteStrategy.formatDevice lenv opts).1 ++
                [.ev 5 false, .call .ddTransfer]) ++
                (ddProgress (fs.getsize iso) lenv.ddLines).1, ?_, ?_, ?_⟩
              · simp [hdev, hisop, hfo, hfmt, hzd, hrc]
              · simp
              · rw [List.all_append, List.all_append, List.all_append]
                simp only [Bool.and_eq_true]
                exact ⟨⟨⟨by simp [TraceItem.isEv100], hfall⟩,
                  by simp [TraceItem.isEv100]⟩, hddall⟩
            · intro h
              simp [hdev, hisop, hfo, hfmt, hzd, hrc, TraceItem.isEv100,
                List.any_append, hddany, hfany] at h
      · cases hfo : opts.format.getD true
        · intro h
          simp [hdev, hisop, hfo, hzd, TraceItem.isEv100, List.any_append, hddany] at h
        · cases hfmt : (LinuxWriteStrategy.formatDevice lenv opts).2
          · intro h
            simp [hdev, hisop, hfo, hfmt, TraceItem.isEv100, List.any_append, hfany] at h
          · intro h
            simp [hdev, hisop, hfo, hfmt, hzd, TraceItem.isEv100, List.any_append,
              hddany, hfany] at h

/-- C6 (amended): each dd-derived progress percent equals
`min 99 (floor (b * 100 / image_size))` for the parsed byte count `b`
and never exceeds 99; the 100% event is emitted only when the dd
process (invoked with `conv=fsync`) reported successful completion,
after the dd invocation, as the final event; and the standalone sync
call is issued directly after the 100% event, not before it. -/
theorem dd_percent_formula_and_ordering :
    (∀ (lenv : LinuxEnv) (fs : SysFS) (iso device : String) (opts : WriteOptions) (b : Nat),
      fs.pathExists device = true → fs.pathExists iso = true →
      (opts.format.getD true = false ∨
        (LinuxWriteStrategy.formatDevice lenv opts).2 = true) →
      fs.getsize iso ≠ 0 → b ∈ lenv.ddLines.filterMap id →
      TraceItem.ev (min 99 (b * 100 / fs.getsize iso)) false ∈
        (LinuxWriteStrategy.write lenv fs iso device opts).1)
    ∧ (∀ (s : Nat) (lines : List (Option Nat)) (p : Nat) (f : Bool),
      TraceItem.ev p f ∈ (ddProgress s lines).1 → p ≤ 99 ∧ f = false)
    ∧ (∀ (lenv : LinuxEnv) (fs : SysFS) (iso device : String) (opts : WriteOptions),
      (LinuxWriteStrategy.write lenv fs iso device opts).1.any TraceItem.isEv100 = true →
      lenv.ddReturncode = 0 ∧
      ∃ pre, (LinuxWriteStrategy.write lenv fs iso device opts).1 =
          pre ++ [.ev 100 false, .call .syncStorage] ∧
        TraceItem.call .ddTransfer ∈ pre ∧ pre.all (fun t => !t.isEv100) = true) :=
  ⟨fun lenv fs iso device opts b hdev hiso hfmt hs0 hb =>
      linuxWrite_formula lenv fs iso device opts b hdev hiso hfmt hs0 hb,
    fun s lines p f hp => ddProgress_events_bounded s lines p f hp,
    fun lenv fs iso device opts h => linuxWrite_hundred lenv fs iso device opts h⟩

/-- Linux strategy environment with one in-range dd report, for the
formula witness run. -/
def c6WitLenv : LinuxEnv :=
  { mklabelOk := true, mkpartOk := true, setFlagOk := true, mkfsOk := true,
    ddLines := [some 500], ddReturncode := 0 }

/-- A small image and target device for the formula witness run. -/
def c6WitFS : SysFS :=
  { files := [("x.iso", { size := 1000, byteAt := fun _ => 0 }),
              ("/dev/sde", { size := 0, byteAt := fun _ => 0 })] }

theorem dd_percent_formula_and_ordering_witness :
    TraceItem.ev (min 99 (500 * 100 / SysFS.getsize c6WitFS "x.iso")) false ∈
      (LinuxWriteStrategy.write c6WitLenv c6WitFS "x.iso" "/dev/sde"
        (cliOptions Scheme.gpt Fsys.fat32 "BOOTUSB" false false)).1 :=
  dd_percent_formula_and_ordering.1 c6WitLenv c6WitFS "x.iso" "/dev/sde"
    (cliOptions Scheme.gpt Fsys.fat32 "BOOTUSB" false false) 500
    (by decide) (by decide) (Or.inr (by decide)) (by decide) (by decide)

end MBU
